import Mathlib

/-!
# Verification of the GreenFolio metrics core (`src/data_manager.py`)

A shallow embedding of the pure computational core of `data_manager.py`:
the ESG eligibility filter (`filter_stocks_by_preference`), the series
builders (`get_portfolio_historical_data`, `get_benchmark_data`), the
performance-metrics calculator (`calculate_metrics`) and the portfolio
aggregator (`calculate_portfolio_metrics`).

Modelling conventions:
* Python floats are idealised as the elements of a `LinearOrderedField`
  (instantiated at `ℚ` for concrete evaluation; `ℝ` with `Real.sqrt` is
  one admissible instantiation of the abstract square root).
* `np.sqrt` is passed as an explicit function parameter `sqrtFn : α → α`,
  so every definition stays executable and the theorems quantify over the
  square-root implementation (the numeric reading is `α := ℝ`,
  `sqrtFn := Real.sqrt`).
* A pandas series is a list of values positioned on an implicit shared
  date grid; a `NaN` entry (as produced by `pct_change()` at the first
  date, or by alignment gaps) is modelled as `none` in a
  `List (Option α)`.  Pandas statistics skip `NaN`s, which is modelled by
  `dropna` at the call sites that consume such series.
* The network fetchers `yf.Ticker(...).history` / `get_stock_data` are
  external collaborators: they enter the embedding as explicit function
  parameters (`hist : String → List α`, prices already restricted to the
  requested date range, `[]` for "no data"; `fetch` for asset records).
* Python's `ZeroDivisionError` on a zero weight sum, caught by the
  enclosing `try/except`, is modelled by the explicit `if total = 0`
  branches returning the same value the `except` clause returns.
-/

namespace GreenFolio

variable {α : Type*} [LinearOrderedField α]

/-- Arithmetic mean of a series, `returns.mean()`.  (On `[]` Lean's
`x / 0 = 0` convention gives `0` where pandas gives `NaN`; every claim
below restricts to non-empty series.) -/
def mean (xs : List α) : α := xs.sum / xs.length

/-- Sample variance with the `N - 1` denominator, pandas `Series.var()`
(`ddof = 1`). -/
def svar (xs : List α) : α :=
  ((xs.map (fun x => (x - mean xs) ^ 2)).sum) / ((xs.length : α) - 1)

/-- Sample covariance of two positionally aligned series, pandas
`Series.cov` (`ddof = 1`) for series sharing one date index. -/
def scov (xs ys : List α) : α :=
  ((List.zipWith (fun x y => (x - mean xs) * (y - mean ys)) xs ys).sum) /
    ((xs.length : α) - 1)

/-- Running products: `cumProdAux acc [x₁, x₂, …] = [acc*x₁, acc*x₁*x₂, …]`,
the spine of pandas `Series.cumprod()`. -/
def cumProdAux (acc : α) : List α → List α
  | [] => []
  | x :: xs => (acc * x) :: cumProdAux (acc * x) xs

/-- `Series.cumprod()` on a NaN-free series. -/
def cumprod (xs : List α) : List α := cumProdAux 1 xs

/-- Running maxima given the maximum `m` seen so far. -/
def prefixMaxAux (m : α) : List α → List α
  | [] => []
  | x :: xs => max m x :: prefixMaxAux (max m x) xs

/-- `Series.expanding().max()`: the prefix maximum seen so far at each
position. -/
def prefixMax : List α → List α
  | [] => []
  | x :: xs => x :: prefixMaxAux x xs

/-- `Series.min()` of a non-empty series (`0` on `[]`, a branch no claim
reaches: `calculate_metrics` returns early on an empty series). -/
def listMin : List α → α
  | [] => 0
  | x :: xs => xs.foldl min x

/-- Percentage change over the tail of a price series, previous price
`prev`: all of these entries are defined (`some`). -/
def pctChangeAux (prev : α) : List α → List (Option α)
  | [] => []
  | p :: ps => some (p / prev - 1) :: pctChangeAux p ps

/-- pandas `Series.pct_change()`: the first date keeps its position with a
`NaN` (`none`) value, every later date `i` holds
`price[i]/price[i-1] - 1`. -/
def pctChange : List α → List (Option α)
  | [] => []
  | p :: ps => none :: pctChangeAux p ps

/-- The defined values of `pctChangeAux prev ps` (used to reason about
`dropna`). -/
def pcrets (prev : α) : List α → List α
  | [] => []
  | p :: ps => (p / prev - 1) :: pcrets p ps

/-- `Series.dropna()`: keep the defined entries. -/
def dropna (xs : List (Option α)) : List α := xs.filterMap id

/-- `Series.cumprod()` with pandas' default `skipna=True`: a `NaN` entry
stays `NaN` but does not enter the running product. -/
def cumprodSkip (acc : α) : List (Option α) → List (Option α)
  | [] => []
  | none :: xs => none :: cumprodSkip acc xs
  | some x :: xs => some (acc * x) :: cumprodSkip (acc * x) xs

/-- A candidate-asset record as `filter_stocks_by_preference` sees it: a
Python dict whose ESG keys may each be missing (`none`).  The records
built by `get_stock_data` carry the `*_score` keys and no short keys;
hand-built dicts may carry either.  `ticker` stands for the rest of the
payload (it also distinguishes records). -/
structure Stock (α : Type*) where
  ticker : String := ""
  env : Option α := none
  soc : Option α := none
  gov : Option α := none
  total : Option α := none
  environmental_score : Option α := none
  social_score : Option α := none
  governance_score : Option α := none
  esg_score : Option α := none
deriving DecidableEq

/-- `stock.get("env", stock.get("environmental_score", 0))`. -/
def envScore (s : Stock α) : α := s.env.getD (s.environmental_score.getD 0)

/-- `stock.get("soc", stock.get("social_score", 0))`. -/
def socScore (s : Stock α) : α := s.soc.getD (s.social_score.getD 0)

/-- `stock.get("gov", stock.get("governance_score", 0))`. -/
def govScore (s : Stock α) : α := s.gov.getD (s.governance_score.getD 0)

/-- `stock.get("total", stock.get("esg_score", 0))`. -/
def totalScore (s : Stock α) : α := s.total.getD (s.esg_score.getD 0)

/-- The per-strategy inclusion predicate of `filter_stocks_by_preference`
(lines 34-67), on the four extracted sub-scores.  Python's three-argument
`max(a, b, c)` is `max a (max b c)`. -/
def includeStock (preference : String) (env soc gov total : α) : Bool :=
  if preference = "Net Zéro" then
    decide (env < 4 ∧ total < 20 ∧ max soc gov < 12)
  else if preference = "Multi-thématique ESG" then
    decide (total < 22 ∧ max env (max soc gov) < 10 ∧
      (env < 8 ∨ soc < 8 ∨ gov < 5))
  else if preference = "Solidaire" then
    decide (soc < 8 ∧ gov < 6 ∧ total < 25)
  else
    decide (total < 25 ∧ max env (max soc gov) < 15)

/-- `filter_stocks_by_preference(stocks, preference)` (lines 18-69). -/
def filter_stocks_by_preference [DecidableEq α]
    (stocks : List (Stock α)) (preference : String) : List (Stock α) :=
  if stocks = [] then []
  else stocks.filter fun s =>
    includeStock preference (envScore s) (socScore s) (govScore s) (totalScore s)

/-- The dict returned by `calculate_metrics`: `beta`/`alpha` are present
together or not at all. -/
structure Metrics (α : Type*) where
  annualized_return : α
  annualized_volatility : α
  sharpe_ratio : α
  max_drawdown : α
  betaAlpha : Option (α × α)

/-- `calculate_metrics(returns, benchmark_returns)` (lines 209-256) on the
defined (non-`NaN`) values of the series; `none` models the early-return
`{}` on an empty series.  `sqrtFn` abstracts `np.sqrt`. -/
def calculate_metrics [DecidableEq α] (sqrtFn : α → α)
    (returns : List α) (benchmark_returns : Option (List α)) :
    Option (Metrics α) :=
  if returns = [] then none
  else
    let annualized_return := (1 + mean returns) ^ 252 - 1
    let annualized_volatility := sqrtFn (svar returns) * sqrtFn 252
    let risk_free_rate : α := 2 / 100
    let excess_returns := returns.map (fun r => r - risk_free_rate / 252)
    let sharpe_ratio :=
      if sqrtFn (svar returns) ≠ 0 then
        sqrtFn 252 * mean excess_returns / sqrtFn (svar returns)
      else 0
    let cum_returns := cumprod (returns.map (fun r => 1 + r))
    let drawdowns :=
      List.zipWith (fun c m => c / m - 1) cum_returns (prefixMax cum_returns)
    let max_drawdown := listMin drawdowns
    let betaAlpha :=
      match benchmark_returns with
      | none => none
      | some br =>
        if br = [] then none
        else if svar br ≠ 0 then
          let beta := scov returns br / svar br
          some (beta,
            (annualized_return - risk_free_rate) -
              beta * ((1 + mean br) ^ 252 - 1 - risk_free_rate))
        else some (1, 0)
    some ⟨annualized_return, annualized_volatility, sharpe_ratio,
      max_drawdown, betaAlpha⟩

/-- Pointwise accumulation `portfolio_returns += returns[ticker] * weight`
for one column: `NaN + x = NaN`, and a date missing from the column
(shorter series, pandas alignment gap) leaves `NaN`. -/
def addWeighted : List (Option α) → List (Option α) → α → List (Option α)
  | [], _, _ => []
  | _ :: as', [], w => none :: addWeighted as' [] w
  | a :: as', r :: rs, w =>
    (match a, r with
     | some x, some y => some (x + y * w)
     | _, _ => none) :: addWeighted as' rs w

/-- The `(ticker, weight)` pairs whose fetched close series is non-empty
(`if not hist.empty and 'Close' in hist.columns`). -/
def validPairs [DecidableEq α] (tickers : List String) (weights : List α)
    (hist : String → List α) : List (String × α) :=
  (tickers.zip weights).filter fun tw => !(hist tw.1).isEmpty

/-- `get_portfolio_historical_data(tickers, weights, …)` (lines 139-182),
returning `(portfolio_value, portfolio_returns)`.  `hist t` is the close
series `yf.Ticker(t).history(...)['Close']` over the shared date grid.
A zero sum of valid weights raises `ZeroDivisionError` in Python, which
the `except` clause turns into two empty series. -/
def get_portfolio_historical_data [DecidableEq α]
    (tickers : List String) (weights : List α) (hist : String → List α) :
    List (Option α) × List (Option α) :=
  if tickers = [] ∨ weights = [] then ([], [])
  else
    let valid := validPairs tickers weights hist
    if valid = [] then ([], [])
    else
      let total_weight := (valid.map (·.2)).sum
      if total_weight = 0 then ([], [])
      else
        let n := (valid.map (fun tw => (hist tw.1).length)).foldl max 0
        let portfolio_returns :=
          valid.foldl
            (fun acc tw =>
              addWeighted acc (pctChange (hist tw.1)) (tw.2 / total_weight))
            (List.replicate n (some 0))
        let portfolio_value :=
          (cumprodSkip 1 (portfolio_returns.map (Option.map (fun r => 1 + r)))).map
            (Option.map (· * 100))
        (portfolio_value, portfolio_returns)

/-- `get_benchmark_data(benchmark, …)` (lines 185-207) given the fetched
close series, returning `(normalized, returns)`. -/
def get_benchmark_data (closes : List α) : List α × List (Option α) :=
  match closes with
  | [] => ([], [])
  | c :: _ => (closes.map (fun p => p / c * 100), pctChange closes)

/-- The fields of a `get_stock_data` record that the aggregator reads
(the remaining fields — name, beta, price, … — are never consumed by the
core and are omitted). -/
structure AssetData (α : Type*) where
  sector : String
  country : String
  esg_score : α
  environmental_score : α
  social_score : α
  governance_score : α
deriving DecidableEq

/-- The dict `get_stock_data` hands to `filter_stocks_by_preference`: it
always carries the `*_score` keys and never the short `env`/`soc`/`gov`/
`total` keys. -/
def assetToStock (t : String) (d : AssetData α) : Stock α :=
  { ticker := t
    environmental_score := some d.environmental_score
    social_score := some d.social_score
    governance_score := some d.governance_score
    esg_score := some d.esg_score }

/-- `m.get(key, 0) + δ` written back to the dict: update in place or
append a new key (Python dicts append new keys at the end). -/
def addTo : List (String × α) → String → α → List (String × α)
  | [], k, d => [(k, d)]
  | (k', v) :: rest, k, d =>
    if k' = k then (k', v + d) :: rest else (k', v) :: addTo rest k d

/-- Sum of a dict's values. -/
def valuesSum (m : List (String × α)) : α := (m.map (·.2)).sum

/-- The result dict of `calculate_portfolio_metrics`. -/
structure PortfolioMetrics (α : Type*) where
  volatility : α
  esg_score : α
  environmental_score : α
  social_score : α
  governance_score : α
  sector_exposure : List (String × α)
  country_exposure : List (String × α)
  performance_metrics : Option (Metrics α)

/-- The dict initialised at lines 266-275. -/
def initMetrics : PortfolioMetrics α :=
  { volatility := 0
    esg_score := 0
    environmental_score := 0
    social_score := 0
    governance_score := 0
    sector_exposure := []
    country_exposure := []
    performance_metrics := none }

/-- `portfolio[stock["ticker"]]`: the key is present whenever the lookup
follows a record built from `portfolio`'s own keys, so the default is
never reached on the code's paths. -/
def lookupWeight (portfolio : List (String × α)) (t : String) : α :=
  ((portfolio.lookup t).getD 0)

/-- The `(ticker, weight, record)` triples of the portfolio entries whose
ticker resolves to an asset record (the loop
`for ticker, weight in portfolio.items(): data = get_stock_data(ticker);
if data: …`). -/
def resolvedTriples (fetch : String → Option (AssetData α))
    (portfolio : List (String × α)) : List (String × α × AssetData α) :=
  portfolio.filterMap fun tw => (fetch tw.1).map (fun d => (tw.1, tw.2, d))

/-- Lines 299-343 of `calculate_portfolio_metrics`: everything after the
optional eligibility re-filter, as a function of the working portfolio
`portfolio2`. -/
def aggregatorTail [DecidableEq α] (sqrtFn : α → α)
    (fetch : String → Option (AssetData α)) (hist : String → List α)
    (benchmark : Option (List α)) (portfolio2 : List (String × α)) :
    PortfolioMetrics α :=
    let portfolio_returns :=
      (get_portfolio_historical_data (portfolio2.map (·.1))
        (portfolio2.map (·.2)) hist).2
    let benchmark_returns : Option (List (Option α)) :=
      benchmark.map fun closes => (get_benchmark_data closes).2
    let perf :=
      if portfolio_returns ≠ [] then
        calculate_metrics sqrtFn (dropna portfolio_returns)
          (benchmark_returns.map dropna)
      else none
    let valid := resolvedTriples fetch portfolio2
    if valid = [] then { initMetrics with performance_metrics := perf }
    else
      let total_weight := (valid.map (fun x => x.2.1)).sum
      if total_weight = 0 then
        { initMetrics with performance_metrics := perf }
      else
        { volatility := 0
          esg_score :=
            (valid.map (fun x => x.2.2.esg_score * (x.2.1 / total_weight))).sum
          environmental_score :=
            (valid.map (fun x =>
              x.2.2.environmental_score * (x.2.1 / total_weight))).sum
          social_score :=
            (valid.map (fun x =>
              x.2.2.social_score * (x.2.1 / total_weight))).sum
          governance_score :=
            (valid.map (fun x =>
              x.2.2.governance_score * (x.2.1 / total_weight))).sum
          sector_exposure :=
            valid.foldl
              (fun m x =>
                if x.2.2.sector ≠ "N/A" then
                  addTo m x.2.2.sector (x.2.1 / total_weight)
                else m) []
          country_exposure :=
            valid.foldl
              (fun m x =>
                if x.2.2.country ≠ "N/A" then
                  addTo m x.2.2.country (x.2.1 / total_weight)
                else m) []
          performance_metrics := perf }

/-- `calculate_portfolio_metrics(portfolio, …)` (lines 258-347), assembled
from the optional eligibility re-filter and `aggregatorTail`.
`fetch` abstracts `get_stock_data` (`none` = unresolvable ticker), `hist`
abstracts the per-ticker close series of the requested date range, and
`benchmark` holds the benchmark's fetched close series when a benchmark
ticker was given.  The `ZeroDivisionError` raised by
`weight / total_weight` when the resolvable weights sum to zero is caught
by the enclosing `try/except`, which returns the metrics dict as built so
far — only `performance_metrics` can have been set at that point. -/
def calculate_portfolio_metrics [DecidableEq α] (sqrtFn : α → α)
    (fetch : String → Option (AssetData α)) (hist : String → List α)
    (portfolio : List (String × α)) (preference : Option String)
    (benchmark : Option (List α)) : PortfolioMetrics α :=
  if portfolio = [] then initMetrics
  else
    let stocks_data := portfolio.filterMap fun tw =>
      (fetch tw.1).map (assetToStock tw.1)
    let portfolio2 : List (String × α) :=
      match preference with
      | some pref =>
        (filter_stocks_by_preference stocks_data pref).map fun (s : Stock α) =>
          (s.ticker, lookupWeight portfolio s.ticker)
      | none => portfolio
    aggregatorTail sqrtFn fetch hist benchmark portfolio2

/-! ## Supporting lemmas for the eligibility filter -/

lemma mem_filter_stocks [DecidableEq α] (stocks : List (Stock α))
    (preference : String) (s : Stock α) :
    s ∈ filter_stocks_by_preference stocks preference ↔
      s ∈ stocks ∧
        includeStock preference (envScore s) (socScore s) (govScore s)
          (totalScore s) = true := by
  unfold filter_stocks_by_preference
  split
  · rename_i h
    subst h
    simp
  · exact List.mem_filter

lemma includeStock_netZero (env soc gov total : α) :
    includeStock "Net Zéro" env soc gov total = true ↔
      env < 4 ∧ total < 20 ∧ max soc gov < 12 := by
  rw [includeStock, if_pos rfl]
  exact decide_eq_true_iff

lemma includeStock_multi (env soc gov total : α) :
    includeStock "Multi-thématique ESG" env soc gov total = true ↔
      total < 22 ∧ max env (max soc gov) < 10 ∧
        (env < 8 ∨ soc < 8 ∨ gov < 5) := by
  rw [includeStock, if_neg (by decide), if_pos rfl]
  exact decide_eq_true_iff

lemma includeStock_solidaire (env soc gov total : α) :
    includeStock "Solidaire" env soc gov total = true ↔
      soc < 8 ∧ gov < 6 ∧ total < 25 := by
  rw [includeStock, if_neg (by decide), if_neg (by decide), if_pos rfl]
  exact decide_eq_true_iff

lemma includeStock_default (preference : String)
    (h1 : preference ≠ "Net Zéro") (h2 : preference ≠ "Multi-thématique ESG")
    (h3 : preference ≠ "Solidaire") (env soc gov total : α) :
    includeStock preference env soc gov total = true ↔
      total < 25 ∧ max env (max soc gov) < 15 := by
  rw [includeStock, if_neg h1, if_neg h2, if_neg h3]
  exact decide_eq_true_iff

lemma includeStock_zero (preference : String) :
    includeStock preference (0 : α) 0 0 0 = true := by
  unfold includeStock
  split_ifs <;> rw [decide_eq_true_iff] <;> norm_num

/-- **C1.** For every list of asset records and every strategy name, the
eligibility filter includes an asset exactly when its sub-scores satisfy
the strategy's fixed predicate — "Net Zéro" (NetZero): `env < 4 ∧
total < 20 ∧ max soc gov < 12`; "Multi-thématique ESG"
(MultiThematicESG): `total < 22 ∧ max env (max soc gov) < 10 ∧
(env < 8 ∨ soc < 8 ∨ gov < 5)`; "Solidaire" (Solidarity): `soc < 8 ∧
gov < 6 ∧ total < 25`; any other strategy name: `total < 25 ∧
max env (max soc gov) < 15`.  A sub-score missing from the record is read
as `0`, so an asset with no ESG keys at all is included under every
strategy. -/
theorem eligibility_filter_characterisation
    {α : Type*} [LinearOrderedField α] [DecidableEq α] :
    (∀ (stocks : List (Stock α)) (s : Stock α),
        s ∈ filter_stocks_by_preference stocks "Net Zéro" ↔
          s ∈ stocks ∧
            (envScore s < 4 ∧ totalScore s < 20 ∧
              max (socScore s) (govScore s) < 12)) ∧
    (∀ (stocks : List (Stock α)) (s : Stock α),
        s ∈ filter_stocks_by_preference stocks "Multi-thématique ESG" ↔
          s ∈ stocks ∧
            (totalScore s < 22 ∧
              max (envScore s) (max (socScore s) (govScore s)) < 10 ∧
              (envScore s < 8 ∨ socScore s < 8 ∨ govScore s < 5))) ∧
    (∀ (stocks : List (Stock α)) (s : Stock α),
        s ∈ filter_stocks_by_preference stocks "Solidaire" ↔
          s ∈ stocks ∧
            (socScore s < 8 ∧ govScore s < 6 ∧ totalScore s < 25)) ∧
    (∀ preference : String,
        preference ∉ ["Net Zéro", "Multi-thématique ESG", "Solidaire"] →
        ∀ (stocks : List (Stock α)) (s : Stock α),
          s ∈ filter_stocks_by_preference stocks preference ↔
            s ∈ stocks ∧
              (totalScore s < 25 ∧
                max (envScore s) (max (socScore s) (govScore s)) < 15)) ∧
    (∀ s : Stock α,
        s.env = none → s.soc = none → s.gov = none → s.total = none →
        s.environmental_score = none → s.social_score = none →
        s.governance_score = none → s.esg_score = none →
        (envScore s = 0 ∧ socScore s = 0 ∧ govScore s = 0 ∧
          totalScore s = 0) ∧
        ∀ (preference : String) (stocks : List (Stock α)),
          s ∈ stocks → s ∈ filter_stocks_by_preference stocks preference) := by
  refine ⟨?_, ?_, ?_, ?_, ?_⟩
  · intro stocks s
    rw [mem_filter_stocks, includeStock_netZero]
  · intro stocks s
    rw [mem_filter_stocks, includeStock_multi]
  · intro stocks s
    rw [mem_filter_stocks, includeStock_solidaire]
  · intro preference hpref stocks s
    simp only [List.mem_cons, List.not_mem_nil, or_false, not_or] at hpref
    rw [mem_filter_stocks,
      includeStock_default preference hpref.1 hpref.2.1 hpref.2.2]
  · intro s h1 h2 h3 h4 h5 h6 h7 h8
    have hscores : envScore s = 0 ∧ socScore s = 0 ∧ govScore s = 0 ∧
        totalScore s = 0 := by
      simp [envScore, socScore, govScore, totalScore, h1, h2, h3, h4, h5, h6,
        h7, h8]
    refine ⟨hscores, fun preference stocks hmem => ?_⟩
    rw [mem_filter_stocks]
    exact ⟨hmem, by
      rw [hscores.1, hscores.2.1, hscores.2.2.1, hscores.2.2.2]
      exact includeStock_zero preference⟩

/-- **C9.** The eligibility filter's output is a subsequence of its input
(surviving records keep their relative order and are unmodified), and the
filter is idempotent: filtering its own output under the same strategy
returns it unchanged. -/
theorem eligibility_filter_sublist_idempotent
    {α : Type*} [LinearOrderedField α] [DecidableEq α] :
    (∀ (stocks : List (Stock α)) (preference : String),
        List.Sublist (filter_stocks_by_preference stocks preference) stocks) ∧
    (∀ (stocks : List (Stock α)) (preference : String),
        filter_stocks_by_preference
            (filter_stocks_by_preference stocks preference) preference =
          filter_stocks_by_preference stocks preference) := by
  constructor
  · intro stocks preference
    unfold filter_stocks_by_preference
    split
    · exact List.nil_sublist _
    · exact List.filter_sublist _
  · intro stocks preference
    by_cases hstocks : stocks = []
    · subst hstocks
      rfl
    · rw [show filter_stocks_by_preference stocks preference
          = stocks.filter (fun s =>
              includeStock preference (envScore s) (socScore s) (govScore s)
                (totalScore s)) from by
        rw [filter_stocks_by_preference, if_neg hstocks]]
      by_cases hres : stocks.filter (fun s =>
          includeStock preference (envScore s) (socScore s) (govScore s)
            (totalScore s)) = []
      · rw [hres]
        rfl
      · rw [filter_stocks_by_preference, if_neg hres, List.filter_filter]
        simp

/-- **C10.** For every input (any weights map, data source, strategy and
benchmark), the `PortfolioMetrics` record returned by
`calculate_portfolio_metrics` has a top-level `volatility` field equal to
`0`: it is initialised to zero and no code path ever updates it,
regardless of the assets' actual volatilities. -/
theorem portfolio_volatility_always_zero
    {α : Type*} [LinearOrderedField α] [DecidableEq α]
    (sqrtFn : α → α) (fetch : String → Option (AssetData α))
    (hist : String → List α) (portfolio : List (String × α))
    (preference : Option String) (benchmark : Option (List α)) :
    (calculate_portfolio_metrics sqrtFn fetch hist portfolio preference
        benchmark).volatility = 0 := by
  have htail : ∀ p2 : List (String × α),
      (aggregatorTail sqrtFn fetch hist benchmark p2).volatility = 0 := by
    intro p2
    simp only [aggregatorTail]
    split
    · rfl
    · split <;> rfl
  simp only [calculate_portfolio_metrics]
  split
  · rfl
  · split <;> exact htail _

/-! ## Supporting lemmas for `calculate_metrics` -/

lemma calculate_metrics_some [DecidableEq α] (sqrtFn : α → α)
    (returns : List α) (bo : Option (List α)) (h : returns ≠ []) :
    calculate_metrics sqrtFn returns bo = some
      { annualized_return := (1 + mean returns) ^ 252 - 1
        annualized_volatility := sqrtFn (svar returns) * sqrtFn 252
        sharpe_ratio :=
          if sqrtFn (svar returns) ≠ 0 then
            sqrtFn 252 * mean (returns.map (fun r => r - (2 / 100) / 252)) /
              sqrtFn (svar returns)
          else 0
        max_drawdown :=
          listMin (List.zipWith (fun c m => c / m - 1)
            (cumprod (returns.map (fun r => 1 + r)))
            (prefixMax (cumprod (returns.map (fun r => 1 + r)))))
        betaAlpha :=
          match bo with
          | none => none
          | some br =>
            if br = [] then none
            else if svar br ≠ 0 then
              some (scov returns br / svar br,
                (((1 + mean returns) ^ 252 - 1) - 2 / 100) -
                  (scov returns br / svar br) *
                    ((1 + mean br) ^ 252 - 1 - 2 / 100))
            else some (1, 0) } := by
  rw [calculate_metrics, if_neg h]

lemma length_cumProdAux (xs : List α) (acc : α) :
    (cumProdAux acc xs).length = xs.length := by
  induction xs generalizing acc with
  | nil => rfl
  | cons x xs ih => simp [cumProdAux, ih]

lemma cumProdAux_getElem (xs : List α) (acc : α) (i : ℕ)
    (h : i < (cumProdAux acc xs).length) :
    (cumProdAux acc xs)[i] = acc * (xs.take (i + 1)).prod := by
  induction xs generalizing acc i with
  | nil => simp [cumProdAux] at h
  | cons x xs ih =>
    cases i with
    | zero => simp [cumProdAux]
    | succ n =>
      have hn : n < (cumProdAux (acc * x) xs).length := by
        simpa [cumProdAux] using h
      have hstep : (cumProdAux acc (x :: xs))[n + 1] =
          (cumProdAux (acc * x) xs)[n] := rfl
      rw [hstep, ih (acc * x) n hn, List.take_succ_cons, List.prod_cons,
        mul_assoc]

lemma length_prefixMaxAux (xs : List α) (m : α) :
    (prefixMaxAux m xs).length = xs.length := by
  induction xs generalizing m with
  | nil => rfl
  | cons x xs ih => simp [prefixMaxAux, ih]

lemma length_prefixMax (xs : List α) : (prefixMax xs).length = xs.length := by
  cases xs with
  | nil => rfl
  | cons x xs => simp [prefixMax, length_prefixMaxAux]

lemma prefixMaxAux_getElem (xs : List α) (m : α) (i : ℕ)
    (h : i < (prefixMaxAux m xs).length) :
    (prefixMaxAux m xs)[i] = (xs.take (i + 1)).foldl max m := by
  induction xs generalizing m i with
  | nil => simp [prefixMaxAux] at h
  | cons x xs ih =>
    cases i with
    | zero => simp [prefixMaxAux]
    | succ n =>
      have hn : n < (prefixMaxAux (max m x) xs).length := by
        simpa [prefixMaxAux] using h
      have hstep : (prefixMaxAux m (x :: xs))[n + 1] =
          (prefixMaxAux (max m x) xs)[n] := rfl
      rw [hstep, ih (max m x) n hn, List.take_succ_cons]
      rfl

lemma prefixMax_cons_getElem (c : α) (t : List α) (i : ℕ)
    (h : i < (prefixMax (c :: t)).length) :
    (prefixMax (c :: t))[i] = (t.take i).foldl max c := by
  cases i with
  | zero => rfl
  | succ n =>
    have hn : n < (prefixMaxAux c t).length := by
      simpa [prefixMax, length_prefixMaxAux] using h
    have hstep : (prefixMax (c :: t))[n + 1] = (prefixMaxAux c t)[n] := rfl
    rw [hstep, prefixMaxAux_getElem t c n hn]

/-- The spec's `cumProd[i]`: the product of `1 + return[j]` over `j ≤ i`. -/
def specCumProd (rs : List α) (i : ℕ) : α :=
  ((rs.take (i + 1)).map (fun r => 1 + r)).prod

/-- The spec's running maximum: the prefix maximum of `cumProd` over
`0..i` (expanding window). -/
def specRunMax (rs : List α) (i : ℕ) : α :=
  ((List.range (i + 1)).map (specCumProd rs)).foldl max (specCumProd rs 0)

/-- The spec's drawdown series: `cumProd[i] / runningMax[i] - 1` at each
index `i`. -/
def specDrawdowns (rs : List α) : List α :=
  (List.range rs.length).map (fun i => specCumProd rs i / specRunMax rs i - 1)

lemma cumprod_getElem_spec (rs : List α) (i : ℕ)
    (h : i < (cumprod (rs.map (fun r => 1 + r))).length) :
    (cumprod (rs.map (fun r => 1 + r)))[i] = specCumProd rs i := by
  have h2 : i < (cumProdAux (1 : α) (rs.map (fun r => 1 + r))).length := h
  have hx : (cumprod (rs.map (fun r => 1 + r)))[i] =
      (cumProdAux (1 : α) (rs.map (fun r => 1 + r)))[i] := rfl
  rw [hx, cumProdAux_getElem _ _ _ h2, one_mul, specCumProd, List.map_take]

lemma range_map_eq_take (cs : List α) (k : ℕ) (hk : k ≤ cs.length)
    (f : ℕ → α) (hf : ∀ i, i < cs.length → ∀ h : i < cs.length, f i = cs[i]) :
    (List.range k).map f = cs.take k := by
  apply List.ext_getElem
  · simpa using hk
  · intro i h1 h2
    have hik : i < k := by simpa using h1
    have hic : i < cs.length := lt_of_lt_of_le hik hk
    rw [List.getElem_map, List.getElem_range, List.getElem_take]
    exact hf i hic hic

lemma prefixMax_getElem_foldl (cs : List α) (i : ℕ)
    (h : i < (prefixMax cs).length) (h0 : 0 < cs.length) :
    (prefixMax cs)[i] = (cs.take (i + 1)).foldl max (cs.getD 0 0) := by
  cases cs with
  | nil => simp at h0
  | cons c t =>
    rw [prefixMax_cons_getElem c t i h, List.take_succ_cons]
    simp [max_self]

/-- The pandas pipeline — `cumprod` of `1 + r`, `expanding().max()`, the
pointwise `c / m - 1` and `min` — computes exactly the spec's indexed
drawdown series. -/
lemma drawdowns_eq_spec (rs : List α) :
    List.zipWith (fun c m => c / m - 1) (cumprod (rs.map (fun r => 1 + r)))
        (prefixMax (cumprod (rs.map (fun r => 1 + r)))) =
      specDrawdowns rs := by
  have hlen : (cumprod (rs.map (fun r => 1 + r))).length = rs.length := by
    rw [cumprod, length_cumProdAux, List.length_map]
  apply List.ext_getElem
  · simp [specDrawdowns, List.length_zipWith, length_prefixMax, hlen]
  · intro i h1 h2
    have hi : i < (cumprod (rs.map (fun r => 1 + r))).length := by
      simpa [List.length_zipWith, length_prefixMax] using h1
    have hipm : i < (prefixMax (cumprod (rs.map (fun r => 1 + r)))).length := by
      rwa [length_prefixMax]
    have h0 : 0 < (cumprod (rs.map (fun r => 1 + r))).length :=
      Nat.lt_of_le_of_lt (Nat.zero_le i) hi
    rw [List.getElem_zipWith (h := h1)]
    have htake : (List.range (i + 1)).map (specCumProd rs) =
        (cumprod (rs.map (fun r => 1 + r))).take (i + 1) := by
      refine range_map_eq_take _ (i + 1) hi (specCumProd rs) ?_
      intro j hj hj2
      exact (cumprod_getElem_spec rs j hj2).symm
    have hhead : (cumprod (rs.map (fun r => 1 + r))).getD 0 0 =
        specCumProd rs 0 := by
      have := cumprod_getElem_spec rs 0 h0
      rw [← this, List.getD_eq_getElem _ _ h0]
    have hmax : (prefixMax (cumprod (rs.map (fun r => 1 + r))))[i] =
        specRunMax rs i := by
      rw [prefixMax_getElem_foldl _ i hipm h0, specRunMax, htake, hhead]
    rw [hmax, cumprod_getElem_spec rs i hi]
    simp [specDrawdowns]

/-- **C2.** For every non-empty return series, `calculate_metrics` returns
`annualized_return = (1 + mean returns) ^ 252 - 1`,
`annualized_volatility = stddev(returns) * sqrt 252` (the sample standard
deviation being `sqrtFn` of the sample variance), and
`max_drawdown = min over i of cumProd[i] / runningMax(cumProd)[0..i] - 1`
where `cumProd` is the cumulative product of `1 + return` and the running
maximum is the expanding prefix maximum.  The concrete scenario
`[0.01, -0.02, 0.03]` (whose drawdown is exactly `-0.02`) is settled in
the witness. -/
theorem performance_metrics_formulas
    {α : Type*} [LinearOrderedField α] [DecidableEq α] (sqrtFn : α → α)
    (returns : List α) (h : returns ≠ []) :
    ∃ m, calculate_metrics sqrtFn returns none = some m ∧
      m.annualized_return = (1 + mean returns) ^ 252 - 1 ∧
      m.annualized_volatility = sqrtFn (svar returns) * sqrtFn 252 ∧
      m.max_drawdown = listMin (specDrawdowns returns) := by
  refine ⟨_, calculate_metrics_some sqrtFn returns none h, rfl, rfl, ?_⟩
  show listMin (List.zipWith (fun c m => c / m - 1)
      (cumprod (returns.map (fun r => 1 + r)))
      (prefixMax (cumprod (returns.map (fun r => 1 + r))))) = _
  rw [drawdowns_eq_spec]

/-- Witness for C2 at the spec's concrete scenario: the return series
`[0.01, -0.02, 0.03]` yields `max_drawdown = 0.9898/1.01 - 1 = -0.02`
exactly. -/
theorem performance_metrics_formulas_witness :
    (([1/100, -1/50, 3/100] : List ℚ) ≠ []) ∧
    ∃ m, calculate_metrics (id : ℚ → ℚ) [1/100, -1/50, 3/100] none = some m ∧
      m.max_drawdown = listMin (specDrawdowns [1/100, -1/50, 3/100]) ∧
      m.max_drawdown = -(1/50) := by
  have hval : listMin (specDrawdowns ([1/100, -1/50, 3/100] : List ℚ)) =
      -(1/50) := by
    norm_num [specDrawdowns, specRunMax, specCumProd, listMin,
      List.range_succ, List.foldl_cons, List.foldl_nil, min_def, max_def]
  refine ⟨by decide, ?_⟩
  obtain ⟨m, hm, -, -, hdd⟩ :=
    performance_metrics_formulas (id : ℚ → ℚ) [1/100, -1/50, 3/100] (by decide)
  exact ⟨m, hm, hdd, by rw [hdd, hval]⟩

/-- **C3.** For every non-empty return series and non-empty supplied
benchmark return series: if the sample variance of the benchmark is zero
then `beta = 1` and `alpha = 0` exactly (a total fallback — no exception
path exists in the embedding); otherwise
`beta = cov(returns, benchmark) / var(benchmark)` and
`alpha = (annualized_return - 0.02) - beta * ((1 + mean bench)^252 - 1 - 0.02)`. -/
theorem beta_alpha_formulas
    {α : Type*} [LinearOrderedField α] [DecidableEq α] (sqrtFn : α → α)
    (returns benchReturns : List α) (h : returns ≠ [])
    (hb : benchReturns ≠ []) :
    ∃ m, calculate_metrics sqrtFn returns (some benchReturns) = some m ∧
      (svar benchReturns = 0 → m.betaAlpha = some (1, 0)) ∧
      (svar benchReturns ≠ 0 →
        m.betaAlpha = some (scov returns benchReturns / svar benchReturns,
          (((1 + mean returns) ^ 252 - 1) - 2 / 100) -
            scov returns benchReturns / svar benchReturns *
              ((1 + mean benchReturns) ^ 252 - 1 - 2 / 100))) := by
  refine ⟨_, calculate_metrics_some sqrtFn returns (some benchReturns) h,
    ?_, ?_⟩
  · intro h0
    show (if benchReturns = [] then none
      else if svar benchReturns ≠ 0 then _ else some (1, 0)) = _
    rw [if_neg hb, if_neg (by simpa using h0)]
  · intro hne
    show (if benchReturns = [] then none
      else if svar benchReturns ≠ 0 then _ else some (1, 0)) = _
    rw [if_neg hb, if_pos hne]

/-- Witness for C3: a constant benchmark `[0.05, 0.05]` has sample
variance zero, and the metrics for returns `[0.01, 0.02]` against it
carry `beta = 1`, `alpha = 0`. -/
theorem beta_alpha_formulas_witness :
    (([1/100, 2/100] : List ℚ) ≠ []) ∧ (([5/100, 5/100] : List ℚ) ≠ []) ∧
    svar ([5/100, 5/100] : List ℚ) = 0 ∧
    ∃ m, calculate_metrics (id : ℚ → ℚ) [1/100, 2/100]
        (some [5/100, 5/100]) = some m ∧ m.betaAlpha = some (1, 0) := by
  have hsv : svar ([5/100, 5/100] : List ℚ) = 0 := by norm_num [svar, mean]
  refine ⟨by decide, by decide, hsv, ?_⟩
  obtain ⟨m, hm, h0, -⟩ :=
    beta_alpha_formulas (id : ℚ → ℚ) [1/100, 2/100] [5/100, 5/100]
      (by decide) (by decide)
  exact ⟨m, hm, h0 hsv⟩

/-- **C4.** For every non-empty return series whose sample standard
deviation is zero, `calculate_metrics` returns `sharpe_ratio = 0` exactly
(the division is never attempted); with nonzero standard deviation it
returns `sqrt 252 * mean (returns - 0.02/252) / stddev returns`. -/
theorem sharpe_ratio_cases
    {α : Type*} [LinearOrderedField α] [DecidableEq α] (sqrtFn : α → α)
    (returns : List α) (h : returns ≠ []) :
    ∃ m, calculate_metrics sqrtFn returns none = some m ∧
      (sqrtFn (svar returns) = 0 → m.sharpe_ratio = 0) ∧
      (sqrtFn (svar returns) ≠ 0 →
        m.sharpe_ratio =
          sqrtFn 252 * mean (returns.map (fun r => r - (2 / 100) / 252)) /
            sqrtFn (svar returns)) := by
  refine ⟨_, calculate_metrics_some sqrtFn returns none h, ?_, ?_⟩
  · intro h0
    show (if sqrtFn (svar returns) ≠ 0 then _ else 0) = 0
    rw [if_neg (by simpa using h0)]
  · intro hne
    show (if sqrtFn (svar returns) ≠ 0 then _ else 0) = _
    rw [if_pos hne]

/-- Witness for C4: the constant return series `[0.01, 0.01]` has sample
standard deviation zero and gets `sharpe_ratio = 0` exactly. -/
theorem sharpe_ratio_cases_witness :
    (([1/100, 1/100] : List ℚ) ≠ []) ∧
    svar ([1/100, 1/100] : List ℚ) = 0 ∧
    ∃ m, calculate_metrics (id : ℚ → ℚ) [1/100, 1/100] none = some m ∧
      m.sharpe_ratio = 0 := by
  have hsv : svar ([1/100, 1/100] : List ℚ) = 0 := by norm_num [svar, mean]
  refine ⟨by decide, hsv, ?_⟩
  obtain ⟨m, hm, h0, -⟩ :=
    sharpe_ratio_cases (id : ℚ → ℚ) [1/100, 1/100] (by decide)
  exact ⟨m, hm, h0 (by simpa using hsv)⟩

/-! ## Supporting lemmas for the series builders -/

lemma length_pctChangeAux (ps : List α) (prev : α) :
    (pctChangeAux prev ps).length = ps.length := by
  induction ps generalizing prev with
  | nil => rfl
  | cons p ps ih => simp [pctChangeAux, ih]

lemma length_pctChange (closes : List α) :
    (pctChange closes).length = closes.length := by
  cases closes with
  | nil => rfl
  | cons c ps => simp [pctChange, length_pctChangeAux]

lemma pctChangeAux_getD (ps : List α) (prev : α) (j : ℕ)
    (h : j < ps.length) :
    (pctChangeAux prev ps).getD j none =
      some (ps.getD j 0 / (if j = 0 then prev else ps.getD (j - 1) 0) - 1) := by
  induction ps generalizing prev j with
  | nil => simp at h
  | cons p ps ih =>
    cases j with
    | zero => simp [pctChangeAux]
    | succ k =>
      have hk : k < ps.length := by simpa using h
      have hstep : (pctChangeAux prev (p :: ps)).getD (k + 1) none =
          (pctChangeAux p ps).getD k none := rfl
      rw [hstep, ih p k hk]
      cases k with
      | zero => simp
      | succ k2 => simp

lemma pctChange_getD (closes : List α) (i : ℕ) (h1 : 1 ≤ i)
    (h2 : i < closes.length) :
    (pctChange closes).getD i none =
      some (closes.getD i 0 / closes.getD (i - 1) 0 - 1) := by
  cases closes with
  | nil => simp at h2
  | cons c ps =>
    obtain ⟨j, rfl⟩ : ∃ j, i = j + 1 := ⟨i - 1, by omega⟩
    have hj : j < ps.length := by simpa using h2
    have hstep : (pctChange (c :: ps)).getD (j + 1) none =
        (pctChangeAux c ps).getD j none := rfl
    rw [hstep, pctChangeAux_getD ps c j hj]
    cases j with
    | zero => simp
    | succ k => simp

/-- **C6 counterexample.**  The claim says the first date, having no
return, is dropped from the derived return series, which would make the
return series one entry shorter than the close series; on the close
series `[100, 110]` the benchmark return series still has 2 entries
(`pct_change()` keeps the first date with a `NaN` value — there is no
`dropna()` in `get_portfolio_historical_data` or `get_benchmark_data`). -/
theorem return_series_first_date_retained :
    ¬ ((get_benchmark_data ([100, 110] : List ℚ)).2.length =
        ([100, 110] : List ℚ).length - 1) := by
  decide

/-- **C6 (amended).** For every non-empty close-price series, the derived
return series (shared by portfolio constituents and the benchmark via
`pctChange`) has return `price[i]/price[i-1] - 1` at every date `i ≥ 1`;
the first date is *retained* carrying a missing (`NaN`) return value, not
dropped, so the return series has the same length as the close series.
Downstream statistics skip the `NaN`, which is observationally equivalent
to dropping it. -/
theorem return_series_amended {α : Type*} [LinearOrderedField α]
    (closes : List α) (h : closes ≠ []) :
    (pctChange closes).length = closes.length ∧
    (pctChange closes).getD 0 none = none ∧
    (∀ i, 1 ≤ i → i < closes.length →
      (pctChange closes).getD i none =
        some (closes.getD i 0 / closes.getD (i - 1) 0 - 1)) ∧
    (get_benchmark_data closes).2 = pctChange closes := by
  refine ⟨length_pctChange closes, ?_,
    fun i h1 h2 => pctChange_getD closes i h1 h2, ?_⟩
  · cases closes with
    | nil => rfl
    | cons c ps => rfl
  · cases closes with
    | nil => rfl
    | cons c ps => rfl

/-- Witness for the amended C6 at the close series `[100, 110]`. -/
theorem return_series_amended_witness :
    (([100, 110] : List ℚ) ≠ []) ∧
    ((pctChange ([100, 110] : List ℚ)).length =
        ([100, 110] : List ℚ).length ∧
      (pctChange ([100, 110] : List ℚ)).getD 0 none = none ∧
      (∀ i, 1 ≤ i → i < ([100, 110] : List ℚ).length →
        (pctChange ([100, 110] : List ℚ)).getD i none =
          some (([100, 110] : List ℚ).getD i 0 /
            ([100, 110] : List ℚ).getD (i - 1) 0 - 1)) ∧
      (get_benchmark_data ([100, 110] : List ℚ)).2 =
        pctChange ([100, 110] : List ℚ)) :=
  ⟨by decide, return_series_amended ([100, 110] : List ℚ) (by decide)⟩

lemma pctChangeAux_eq_map_some (ps : List α) (prev : α) :
    pctChangeAux prev ps = (pcrets prev ps).map some := by
  induction ps generalizing prev with
  | nil => rfl
  | cons p ps ih => simp [pctChangeAux, pcrets, ih]

lemma length_pcrets (ps : List α) (prev : α) :
    (pcrets prev ps).length = ps.length := by
  induction ps generalizing prev with
  | nil => rfl
  | cons p ps ih => simp [pcrets, ih]

lemma pcrets_take (ps : List α) (prev : α) (i : ℕ) :
    (pcrets prev ps).take i = pcrets prev (ps.take i) := by
  induction ps generalizing prev i with
  | nil => simp [pcrets]
  | cons p ps ih =>
    cases i with
    | zero => simp [pcrets]
    | succ j => simp [pcrets, ih]

lemma dropna_map_some (xs : List α) : dropna (xs.map some) = xs := by
  simp [dropna, List.filterMap_map]

lemma dropna_none_cons (xs : List (Option α)) :
    dropna (none :: xs) = dropna xs := rfl

lemma getLastD_take (ps : List α) (j : ℕ) (c : α) (h : j < ps.length) :
    (ps.take (j + 1)).getLastD c = ps.getD j 0 := by
  induction ps generalizing j c with
  | nil => simp at h
  | cons p ps ih =>
    cases j with
    | zero =>
      cases ps <;> simp [List.getLastD_cons]
    | succ k =>
      have hk : k < ps.length := by simpa using h
      rw [List.take_succ_cons, List.getLastD_cons]
      exact ih k p hk

/-- Telescoping: the product of `1 + r` over the derived returns of a
price run equals last price over first price. -/
lemma pcrets_prod (ps : List α) (prev : α) (hprev : prev ≠ 0)
    (hpos : ∀ p ∈ ps, p ≠ 0) :
    ((pcrets prev ps).map (fun r => 1 + r)).prod = ps.getLastD prev / prev := by
  induction ps generalizing prev with
  | nil => simp [pcrets, div_self hprev]
  | cons p ps ih =>
    have hp : p ≠ 0 := hpos p (List.mem_cons_self p ps)
    have hrest : ∀ q ∈ ps, q ≠ 0 := fun q hq => hpos q (List.mem_cons_of_mem p hq)
    rw [pcrets, List.map_cons, List.prod_cons, ih p hp hrest,
      List.getLastD_cons]
    have h1 : 1 + (p / prev - 1) = p / prev := by ring
    rw [h1, div_mul_div_comm, mul_comm prev p, mul_div_mul_left _ _ hp]

/-- The benchmark's normalised series satisfies the base-100 cumulative
product formula: `value[i] = 100 × Π_{1 ≤ j ≤ i} (1 + return[j])`. -/
lemma benchmark_value_spec (closes : List α) (hpos : ∀ p ∈ closes, p ≠ 0) :
    ∀ i, i < closes.length →
      (get_benchmark_data closes).1.getD i 0 =
        100 * (((dropna (get_benchmark_data closes).2).take i).map
          (fun r => 1 + r)).prod := by
  cases closes with
  | nil => intro i hi; simp at hi
  | cons c ps =>
    intro i hi
    have hc : c ≠ 0 := hpos c (List.mem_cons_self c ps)
    have hdrop : dropna (get_benchmark_data (c :: ps)).2 = pcrets c ps := by
      show dropna (pctChange (c :: ps)) = pcrets c ps
      rw [pctChange, dropna_none_cons, pctChangeAux_eq_map_some,
        dropna_map_some]
    rw [hdrop]
    cases i with
    | zero =>
      show ((c :: ps).map (fun p => p / c * 100)).getD 0 0 = _
      simp [div_self hc]
    | succ j =>
      have hj : j < ps.length := by simpa using hi
      have hrest : ∀ q ∈ ps.take (j + 1), q ≠ 0 := fun q hq =>
        hpos q (List.mem_cons_of_mem c (List.take_subset (j + 1) ps hq))
      have hlhs : (get_benchmark_data (c :: ps)).1.getD (j + 1) 0 =
          ps.getD j 0 / c * 100 := by
        show ((c :: ps).map (fun p => p / c * 100)).getD (j + 1) 0 = _
        have hlt : j + 1 < ((c :: ps).map (fun p => p / c * 100)).length := by
          simpa using hi
        rw [List.getD_eq_getElem _ _ hlt, List.getElem_map]
        have hj2 : j < ps.length := hj
        rw [List.getElem_cons_succ, ← List.getD_eq_getElem ps 0 hj2]
      rw [hlhs, pcrets_take, pcrets_prod (ps.take (j + 1)) c hc hrest,
        getLastD_take ps j c hj, mul_comm]

lemma length_addWeighted (acc col : List (Option α)) (w : α) :
    (addWeighted acc col w).length = acc.length := by
  induction acc generalizing col with
  | nil => rfl
  | cons a as ih =>
    cases col with
    | nil => simp [addWeighted, ih]
    | cons r rs => simp [addWeighted, ih]

lemma addWeighted_somes (xs : List α) (w : α) :
    ∀ ys : List α, xs.length = ys.length →
      addWeighted (xs.map some) (ys.map some) w =
        (List.zipWith (fun x y => x + y * w) xs ys).map some := by
  induction xs with
  | nil =>
    intro ys h
    rfl
  | cons x xs ih =>
    intro ys h
    cases ys with
    | nil => simp at h
    | cons y ys => simp [addWeighted, ih ys (by simpa using h)]

lemma addWeighted_none_cons (a : Option α) (as bs : List (Option α)) (w : α) :
    addWeighted (a :: as) (none :: bs) w = none :: addWeighted as bs w := by
  cases a <;> rfl

lemma length_cumprodSkip (xs : List (Option α)) (acc : α) :
    (cumprodSkip acc xs).length = xs.length := by
  induction xs generalizing acc with
  | nil => rfl
  | cons x xs ih => cases x <;> simp [cumprodSkip, ih]

lemma cumprodSkip_map_some (xs : List α) (acc : α) :
    cumprodSkip acc (xs.map some) = (cumProdAux acc xs).map some := by
  induction xs generalizing acc with
  | nil => rfl
  | cons x xs ih => simp [cumprodSkip, cumProdAux, ih]

lemma foldl_max_const (L : ℕ) :
    ∀ (l : List ℕ) (a : ℕ), (∀ x ∈ l, x = L) →
      l.foldl max a = if l = [] then a else max a L := by
  intro l
  induction l with
  | nil => intro a _; simp
  | cons x l ih =>
    intro a h
    have hx : x = L := h x (List.mem_cons_self x l)
    have hrest : ∀ y ∈ l, y = L := fun y hy => h y (List.mem_cons_of_mem x hy)
    rw [List.foldl_cons, ih (max a x) hrest, hx]
    by_cases hl : l = [] <;> simp [hl, max_assoc]

/-- The weighted accumulation over any tail of valid columns keeps the
shape "missing first date, defined afterwards". -/
lemma fold_addWeighted_shape (hist : String → List α) (total : α) (L : ℕ) :
    ∀ (l : List (String × α)) (start : List α),
      start.length = L - 1 →
      (∀ tw ∈ l, (hist tw.1).length = L) →
      ∃ rs : List α, rs.length = L - 1 ∧
        l.foldl (fun acc tw =>
            addWeighted acc (pctChange (hist tw.1)) (tw.2 / total))
          (none :: start.map some) = none :: rs.map some := by
  intro l
  induction l with
  | nil =>
    intro start hs _
    exact ⟨start, hs, rfl⟩
  | cons tw l ih =>
    intro start hs hlen
    have hL : (hist tw.1).length = L := hlen tw (List.mem_cons_self tw l)
    have hrest : ∀ uv ∈ l, (hist uv.1).length = L := fun uv huv =>
      hlen uv (List.mem_cons_of_mem tw huv)
    simp only [List.foldl_cons]
    cases hh : hist tw.1 with
    | nil =>
      have hL0 : L = 0 := by rw [← hL, hh]; rfl
      have hstart : start = [] := by
        have : start.length = 0 := by omega
        exact List.eq_nil_of_length_eq_zero this
      subst hstart
      have hstep : addWeighted ([none] : List (Option α)) (pctChange [])
          (tw.2 / total) = [none] := rfl
      simpa [hstep] using ih [] (by simp [hL0]) hrest
    | cons p ps =>
      have hps : ps.length = L - 1 := by
        rw [hh] at hL
        simpa using congrArg (· - 1) hL
      have hstep : addWeighted (none :: start.map some) (pctChange (p :: ps))
          (tw.2 / total) =
          none :: (List.zipWith (fun x y => x + y * (tw.2 / total)) start
            (pcrets p ps)).map some := by
        rw [pctChange, addWeighted_none_cons, pctChangeAux_eq_map_some,
          addWeighted_somes start (tw.2 / total) (pcrets p ps)
            (by rw [length_pcrets, hps, hs])]
      rw [hstep]
      exact ih _ (by
        rw [List.length_zipWith, length_pcrets, hps, hs]
        exact min_self _) hrest

/-- Structure of the portfolio series built by
`get_portfolio_historical_data` when at least one close series resolves,
all resolvable series share a date grid of length `L`, and the valid
weights do not sum to zero: the return series is a missing first entry
followed by `L - 1` defined portfolio returns `rs`, and the value series
is a missing first entry followed by the running products of `1 + rs`
scaled by 100. -/
lemma gphd_structure [DecidableEq α] (tickers : List String)
    (weights : List α) (hist : String → List α) (L : ℕ) (hL : 1 ≤ L)
    (hvalid : validPairs tickers weights hist ≠ [])
    (hlen : ∀ tw ∈ validPairs tickers weights hist, (hist tw.1).length = L)
    (htot : ((validPairs tickers weights hist).map (·.2)).sum ≠ 0) :
    ∃ rs : List α, rs.length = L - 1 ∧
      (get_portfolio_historical_data tickers weights hist).2 =
        none :: rs.map some ∧
      (get_portfolio_historical_data tickers weights hist).1 =
        none :: ((cumProdAux 1 (rs.map (fun r => 1 + r))).map
          (fun x => x * 100)).map some := by
  have hne : ¬(tickers = [] ∨ weights = []) := by
    rintro (h | h) <;> subst h <;> simp [validPairs] at hvalid
  obtain ⟨v, vs, hv⟩ : ∃ v vs, validPairs tickers weights hist = v :: vs := by
    cases hvp : validPairs tickers weights hist with
    | nil => exact absurd hvp hvalid
    | cons v vs => exact ⟨v, vs, rfl⟩
  have hn : ((validPairs tickers weights hist).map
      (fun tw => (hist tw.1).length)).foldl max 0 = L := by
    have hmap : ∀ x ∈ (validPairs tickers weights hist).map
        (fun tw => (hist tw.1).length), x = L := by
      intro x hx
      obtain ⟨tw, htw, rfl⟩ := List.mem_map.mp hx
      exact hlen tw htw
    have hmapne : (validPairs tickers weights hist).map
        (fun tw => (hist tw.1).length) ≠ [] := by
      rw [hv]
      simp
    rw [foldl_max_const L _ 0 hmap, if_neg hmapne]
    exact Nat.max_eq_right (Nat.zero_le L)
  obtain ⟨K, hK⟩ : ∃ K, L = K + 1 := ⟨L - 1, by omega⟩
  have hvL : (hist v.1).length = L := hlen v (hv ▸ List.mem_cons_self v vs)
  obtain ⟨p, ps, hp⟩ : ∃ p ps, hist v.1 = p :: ps := by
    cases hh : hist v.1 with
    | nil =>
      rw [hh] at hvL
      simp at hvL
      omega
    | cons p ps => exact ⟨p, ps, rfl⟩
  have hps : ps.length = K := by
    have h2 := hvL
    rw [hp] at h2
    simpa [hK] using h2
  have hmain : ∀ T : α, ∃ rs : List α, rs.length = L - 1 ∧
      (validPairs tickers weights hist).foldl
        (fun acc tw => addWeighted acc (pctChange (hist tw.1)) (tw.2 / T))
        (List.replicate L (some (0 : α))) = none :: rs.map some := by
    intro T
    have hfirstT : addWeighted (List.replicate L (some (0 : α)))
        (pctChange (hist v.1)) (v.2 / T) =
        none :: (List.zipWith (fun x y => x + y * (v.2 / T))
          (List.replicate K (0 : α)) (pcrets p ps)).map some := by
      rw [hp, hK, pctChange, List.replicate_succ, addWeighted_none_cons,
        show List.replicate K (some (0 : α)) =
            (List.replicate K (0 : α)).map some from
          (List.map_replicate ..).symm,
        pctChangeAux_eq_map_some,
        addWeighted_somes _ _ (pcrets p ps) (by simp [length_pcrets, hps])]
    obtain ⟨rs, hrs, hfold⟩ := fold_addWeighted_shape hist T L vs
      (List.zipWith (fun x y => x + y * (v.2 / T))
        (List.replicate K (0 : α)) (pcrets p ps))
      (by simp [List.length_zipWith, length_pcrets, hps, hK])
      (fun uv huv => hlen uv (hv ▸ List.mem_cons_of_mem v huv))
    refine ⟨rs, hrs, ?_⟩
    rw [hv]
    simp only [List.foldl_cons]
    rw [hfirstT]
    exact hfold
  obtain ⟨rs, hrs, hfoldFull⟩ :=
    hmain (((validPairs tickers weights hist).map (·.2)).sum)
  refine ⟨rs, hrs, ?_, ?_⟩
  · show (get_portfolio_historical_data tickers weights hist).2 = _
    simp only [get_portfolio_historical_data]
    rw [if_neg hne, if_neg hvalid, if_neg htot, hn]
    exact hfoldFull
  · show (get_portfolio_historical_data tickers weights hist).1 = _
    simp only [get_portfolio_historical_data]
    rw [if_neg hne, if_neg hvalid, if_neg htot, hn, hfoldFull]
    simp only [List.map_cons, Option.map_none, Option.map_some, cumprodSkip]
    rw [show List.map (Option.map fun r => 1 + r) (List.map some rs) =
        (rs.map (fun r => 1 + r)).map some from by
      simp [List.map_map, Function.comp_def]]
    rw [cumprodSkip_map_some]
    simp [List.map_map, Function.comp_def]

lemma gphd_value_length [DecidableEq α] (tickers : List String)
    (weights : List α) (hist : String → List α) :
    (get_portfolio_historical_data tickers weights hist).1.length =
      (get_portfolio_historical_data tickers weights hist).2.length := by
  simp only [get_portfolio_historical_data]
  split
  · rfl
  · split
    · rfl
    · split
      · rfl
      · simp [length_cumprodSkip]

lemma gphd_empty_iff [DecidableEq α] (tickers : List String)
    (weights : List α) (hist : String → List α) :
    ((get_portfolio_historical_data tickers weights hist).1 = [] ↔
      (get_portfolio_historical_data tickers weights hist).2 = []) := by
  rw [← List.length_eq_zero, ← List.length_eq_zero,
    gphd_value_length tickers weights hist]

lemma gbd_empty_iff (closes : List α) :
    ((get_benchmark_data closes).1 = [] ↔
      (get_benchmark_data closes).2 = []) := by
  cases closes with
  | nil => exact ⟨fun _ => rfl, fun _ => rfl⟩
  | cons c ps => simp [get_benchmark_data, pctChange]

/-- **C5 counterexample.** The claim says the normalized cumulative-value
series has value 100 at index 0.  For the portfolio builder this is
false: with one resolvable ticker whose close series is `[100, 110]`, the
value series is `(1 + returns).cumprod() * 100` where `returns` carries a
`NaN` at the first date, so index 0 of the value series is a missing
value (and its first defined value is `110`, not `100`). -/
theorem portfolio_value_not_100_at_start :
    ¬ ((get_portfolio_historical_data ["A"] [(1 : ℚ)]
        (fun _ => [100, 110])).1.getD 0 none = some 100) := by
  obtain ⟨rs, hrs, hpr, hpv⟩ := gphd_structure ["A"] [(1 : ℚ)]
    (fun _ => [100, 110]) 2 (by norm_num) (by simp [validPairs])
    (by simp [validPairs]) (by norm_num [validPairs])
  rw [hpv]
  simp

/-- **C5 (amended).** The benchmark's normalized series does start at 100
and satisfies `value[i] = 100 × Π_{1 ≤ j ≤ i} (1 + return[j])` (for
nonzero prices), and each value series is empty iff its return series is
empty; but the portfolio's value series has a *missing* (`NaN`) entry at
index 0 — not the value 100 — and satisfies the base-100 product formula
only from index 1 on, so its first defined value is
`100 × (1 + return[1])`. -/
theorem normalized_value_series_amended
    {α : Type*} [LinearOrderedField α] [DecidableEq α] :
    (∀ closes : List α, closes ≠ [] → (∀ p ∈ closes, p ≠ 0) →
      ((get_benchmark_data closes).1.getD 0 0 = 100 ∧
        ∀ i, i < closes.length →
          (get_benchmark_data closes).1.getD i 0 =
            100 * (((dropna (get_benchmark_data closes).2).take i).map
              (fun r => 1 + r)).prod)) ∧
    (∀ closes : List α,
      ((get_benchmark_data closes).1 = [] ↔
        (get_benchmark_data closes).2 = [])) ∧
    (∀ (tickers : List String) (weights : List α) (hist : String → List α)
        (L : ℕ), 1 ≤ L → validPairs tickers weights hist ≠ [] →
      (∀ tw ∈ validPairs tickers weights hist, (hist tw.1).length = L) →
      ((validPairs tickers weights hist).map (·.2)).sum ≠ 0 →
      ((get_portfolio_historical_data tickers weights hist).1.getD 0 none =
          none ∧
        (get_portfolio_historical_data tickers weights hist).1 ≠ [] ∧
        ∀ i, 1 ≤ i → i < L →
          (get_portfolio_historical_data tickers weights hist).1.getD i none =
            some (100 * (((dropna (get_portfolio_historical_data tickers
              weights hist).2).take i).map (fun r => 1 + r)).prod))) ∧
    (∀ (tickers : List String) (weights : List α) (hist : String → List α),
      ((get_portfolio_historical_data tickers weights hist).1 = [] ↔
        (get_portfolio_historical_data tickers weights hist).2 = [])) := by
  refine ⟨?_, gbd_empty_iff, ?_, gphd_empty_iff⟩
  · intro closes h hpos
    refine ⟨?_, benchmark_value_spec closes hpos⟩
    have h0 : 0 < closes.length := List.length_pos.mpr h
    have hval := benchmark_value_spec closes hpos 0 h0
    simpa using hval
  · intro tickers weights hist L hL hvalid hlen htot
    obtain ⟨rs, hrs, hpr, hpv⟩ :=
      gphd_structure tickers weights hist L hL hvalid hlen htot
    have hdrop : dropna
        (get_portfolio_historical_data tickers weights hist).2 = rs := by
      rw [hpr, dropna_none_cons, dropna_map_some]
    refine ⟨by rw [hpv]; rfl, by rw [hpv]; simp, ?_⟩
    intro i h1 hiL
    obtain ⟨j, rfl⟩ : ∃ j, i = j + 1 := ⟨i - 1, by omega⟩
    have hj : j < rs.length := by omega
    rw [hpv, hdrop]
    have hstep : (none :: ((cumProdAux 1 (rs.map (fun r => 1 + r))).map
        (fun x => x * 100)).map some).getD (j + 1) none =
        (((cumProdAux 1 (rs.map (fun r => 1 + r))).map
          (fun x => x * 100)).map some).getD j none := rfl
    have hj2 : j < (((cumProdAux 1 (rs.map (fun r => 1 + r))).map
        (fun x => x * 100)).map some).length := by
      simpa [length_cumProdAux] using hj
    have hj3 : j < (cumProdAux (1 : α) (rs.map (fun r => 1 + r))).length := by
      simpa [length_cumProdAux] using hj
    rw [hstep, List.getD_eq_getElem _ _ hj2, List.getElem_map,
      List.getElem_map, cumProdAux_getElem _ _ _ hj3, one_mul,
      ← List.map_take, mul_comm]

/-- Witness for the amended C5: one resolvable ticker with close series
`[100, 110]` — the portfolio value series has a missing entry at index 0
and satisfies the product formula at index 1. -/
theorem normalized_value_series_amended_witness :
    validPairs ["A"] [(1 : ℚ)] (fun _ => [100, 110]) ≠ [] ∧
    (get_portfolio_historical_data ["A"] [(1 : ℚ)]
      (fun _ => [100, 110])).1.getD 0 none = none ∧
    (get_portfolio_historical_data ["A"] [(1 : ℚ)]
      (fun _ => [100, 110])).1.getD 1 none =
      some (100 * (((dropna (get_portfolio_historical_data ["A"] [(1 : ℚ)]
        (fun _ => [100, 110])).2).take 1).map (fun r => 1 + r)).prod) := by
  obtain ⟨h0, hne, hformula⟩ :=
    (normalized_value_series_amended (α := ℚ)).2.2.1 ["A"] [(1 : ℚ)]
      (fun _ => [100, 110]) 2 (by norm_num) (by simp [validPairs])
      (by simp [validPairs]) (by norm_num [validPairs])
  exact ⟨by simp [validPairs], h0, hformula 1 (by norm_num) (by norm_num)⟩

/-! ## Supporting lemmas for the portfolio aggregator -/

lemma cpm_record_no_pref [DecidableEq α] (sqrtFn : α → α)
    (fetch : String → Option (AssetData α)) (hist : String → List α)
    (portfolio : List (String × α)) (benchmark : Option (List α))
    (hne : portfolio ≠ [])
    (hval : resolvedTriples fetch portfolio ≠ [])
    (htot : ((resolvedTriples fetch portfolio).map
      (fun x => x.2.1)).sum ≠ 0) :
    calculate_portfolio_metrics sqrtFn fetch hist portfolio none benchmark =
      { volatility := 0
        esg_score := ((resolvedTriples fetch portfolio).map
          (fun x => x.2.2.esg_score * (x.2.1 /
            ((resolvedTriples fetch portfolio).map
              (fun x => x.2.1)).sum))).sum
        environmental_score := ((resolvedTriples fetch portfolio).map
          (fun x => x.2.2.environmental_score * (x.2.1 /
            ((resolvedTriples fetch portfolio).map
              (fun x => x.2.1)).sum))).sum
        social_score := ((resolvedTriples fetch portfolio).map
          (fun x => x.2.2.social_score * (x.2.1 /
            ((resolvedTriples fetch portfolio).map
              (fun x => x.2.1)).sum))).sum
        governance_score := ((resolvedTriples fetch portfolio).map
          (fun x => x.2.2.governance_score * (x.2.1 /
            ((resolvedTriples fetch portfolio).map
              (fun x => x.2.1)).sum))).sum
        sector_exposure := (resolvedTriples fetch portfolio).foldl
          (fun m x => if x.2.2.sector ≠ "N/A" then
            addTo m x.2.2.sector (x.2.1 /
              ((resolvedTriples fetch portfolio).map (fun x => x.2.1)).sum)
          else m) []
        country_exposure := (resolvedTriples fetch portfolio).foldl
          (fun m x => if x.2.2.country ≠ "N/A" then
            addTo m x.2.2.country (x.2.1 /
              ((resolvedTriples fetch portfolio).map (fun x => x.2.1)).sum)
          else m) []
        performance_metrics :=
          if (get_portfolio_historical_data (portfolio.map (·.1))
              (portfolio.map (·.2)) hist).2 ≠ [] then
            calculate_metrics sqrtFn
              (dropna (get_portfolio_historical_data (portfolio.map (·.1))
                (portfolio.map (·.2)) hist).2)
              ((benchmark.map (fun closes =>
                (get_benchmark_data closes).2)).map dropna)
          else none } := by
  simp only [calculate_portfolio_metrics, aggregatorTail]
  rw [if_neg hne, if_neg hval, if_neg htot]

lemma valuesSum_addTo (m : List (String × α)) (k : String) (d : α) :
    valuesSum (addTo m k d) = valuesSum m + d := by
  induction m with
  | nil => simp [addTo, valuesSum]
  | cons kv rest ih =>
    obtain ⟨k2, v⟩ := kv
    by_cases h : k2 = k
    · simp only [addTo, if_pos h, valuesSum, List.map_cons, List.sum_cons]
      ring
    · simp only [addTo, if_neg h, valuesSum, List.map_cons, List.sum_cons]
      rw [show ((addTo rest k d).map (fun x => x.2)).sum =
          valuesSum (addTo rest k d) from rfl, ih]
      show v + (valuesSum rest + d) = v + valuesSum rest + d
      ring

lemma valuesSum_exposure_fold (total : α) :
    ∀ (l : List (String × α × AssetData α)) (m : List (String × α)),
      (∀ x ∈ l, (x.2.2 : AssetData α).sector ≠ "N/A") →
      valuesSum (l.foldl (fun acc x =>
          if x.2.2.sector ≠ "N/A" then
            addTo acc x.2.2.sector (x.2.1 / total)
          else acc) m) =
        valuesSum m + (l.map (fun x => x.2.1 / total)).sum := by
  intro l
  induction l with
  | nil =>
    intro m _
    simp
  | cons x l ih =>
    intro m h
    have hx : (x.2.2 : AssetData α).sector ≠ "N/A" :=
      h x (List.mem_cons_self x l)
    rw [List.foldl_cons, if_pos hx,
      ih _ (fun y hy => h y (List.mem_cons_of_mem x hy)), valuesSum_addTo,
      List.map_cons, List.sum_cons]
    ring

lemma sum_map_div {β : Type*} (l : List β) (g : β → α) (c : α) :
    (l.map (fun x => g x / c)).sum = (l.map g).sum / c := by
  induction l with
  | nil => simp
  | cons x l ih => simp [ih, add_div]

lemma resolvedTriples_cons_some (fetch : String → Option (AssetData α))
    (tw : String × α) (l : List (String × α)) (d : AssetData α)
    (hd : fetch tw.1 = some d) :
    resolvedTriples fetch (tw :: l) =
      (tw.1, tw.2, d) :: resolvedTriples fetch l := by
  simp [resolvedTriples, List.filterMap_cons, hd]

lemma resolved_weights_sum (fetch : String → Option (AssetData α)) :
    ∀ portfolio : List (String × α),
      (∀ tw ∈ portfolio, (fetch tw.1).isSome) →
      ((resolvedTriples fetch portfolio).map (fun x => x.2.1)).sum =
        (portfolio.map (·.2)).sum := by
  intro portfolio
  induction portfolio with
  | nil => intro _; rfl
  | cons tw l ih =>
    intro h
    obtain ⟨d, hd⟩ := Option.isSome_iff_exists.mp
      (h tw (List.mem_cons_self tw l))
    rw [resolvedTriples_cons_some fetch tw l d hd, List.map_cons,
      List.sum_cons, List.map_cons, List.sum_cons,
      ih (fun y hy => h y (List.mem_cons_of_mem tw hy))]

lemma resolved_score_sum (fetch : String → Option (AssetData α))
    (sel : AssetData α → α) (T : α) :
    ∀ portfolio : List (String × α),
      (∀ tw ∈ portfolio, (fetch tw.1).isSome) →
      ((resolvedTriples fetch portfolio).map
          (fun x => sel x.2.2 * (x.2.1 / T))).sum =
        (portfolio.map (fun tw =>
          ((fetch tw.1).elim 0 sel) * tw.2 / T)).sum := by
  intro portfolio
  induction portfolio with
  | nil => intro _; rfl
  | cons tw l ih =>
    intro h
    obtain ⟨d, hd⟩ := Option.isSome_iff_exists.mp
      (h tw (List.mem_cons_self tw l))
    rw [resolvedTriples_cons_some fetch tw l d hd, List.map_cons,
      List.sum_cons, List.map_cons, List.sum_cons, hd,
      ih (fun y hy => h y (List.mem_cons_of_mem tw hy))]
    simp [Option.elim, mul_div_assoc]

/-- **C7.** For every portfolio whose tickers all resolve to an asset
record (no sustainability filter applied), the aggregated `esg_score`,
`environmental_score`, `social_score` and `governance_score` each equal
`Σ score_i × weight_i / Σ weights`, and the values of `sector_exposure`
sum to exactly 1 when every asset has a known sector; in particular the
two-asset scenario `{A: 50, B: 50}` yields `esg_score = 12.5` and
`environmental_score = 2.5`. -/
theorem weighted_esg_aggregates
    {α : Type*} [LinearOrderedField α] [DecidableEq α] :
    (∀ (sqrtFn : α → α) (fetch : String → Option (AssetData α))
        (hist : String → List α) (portfolio : List (String × α))
        (benchmark : Option (List α)),
      (∀ tw ∈ portfolio, (fetch tw.1).isSome) →
      (portfolio.map (·.2)).sum ≠ 0 →
      ((calculate_portfolio_metrics sqrtFn fetch hist portfolio none
          benchmark).esg_score =
        (portfolio.map (fun tw => ((fetch tw.1).elim 0
          (fun d => d.esg_score)) * tw.2 /
            (portfolio.map (·.2)).sum)).sum ∧
      (calculate_portfolio_metrics sqrtFn fetch hist portfolio none
          benchmark).environmental_score =
        (portfolio.map (fun tw => ((fetch tw.1).elim 0
          (fun d => d.environmental_score)) * tw.2 /
            (portfolio.map (·.2)).sum)).sum ∧
      (calculate_portfolio_metrics sqrtFn fetch hist portfolio none
          benchmark).social_score =
        (portfolio.map (fun tw => ((fetch tw.1).elim 0
          (fun d => d.social_score)) * tw.2 /
            (portfolio.map (·.2)).sum)).sum ∧
      (calculate_portfolio_metrics sqrtFn fetch hist portfolio none
          benchmark).governance_score =
        (portfolio.map (fun tw => ((fetch tw.1).elim 0
          (fun d => d.governance_score)) * tw.2 /
            (portfolio.map (·.2)).sum)).sum ∧
      ((∀ tw ∈ portfolio, ∀ d, fetch tw.1 = some d → d.sector ≠ "N/A") →
        valuesSum (calculate_portfolio_metrics sqrtFn fetch hist portfolio
          none benchmark).sector_exposure = 1))) ∧
    ((calculate_portfolio_metrics (id : ℚ → ℚ)
        (fun t => if t = "A" then
            some (⟨"Tech", "US", 10, 2, 3, 2⟩ : AssetData ℚ)
          else if t = "B" then
            some (⟨"Tech", "US", 15, 3, 4, 3⟩ : AssetData ℚ)
          else none)
        (fun _ => []) [("A", 50), ("B", 50)] none none).esg_score = 25 / 2 ∧
      (calculate_portfolio_metrics (id : ℚ → ℚ)
        (fun t => if t = "A" then
            some (⟨"Tech", "US", 10, 2, 3, 2⟩ : AssetData ℚ)
          else if t = "B" then
            some (⟨"Tech", "US", 15, 3, 4, 3⟩ : AssetData ℚ)
          else none)
        (fun _ => []) [("A", 50), ("B", 50)] none
          none).environmental_score = 5 / 2) := by
  constructor
  · intro sqrtFn fetch hist portfolio benchmark hres htot
    have hne : portfolio ≠ [] := by
      rintro rfl
      simp at htot
    obtain ⟨tw, l, hpl⟩ : ∃ tw l, portfolio = tw :: l := by
      cases portfolio with
      | nil => exact absurd rfl hne
      | cons tw l => exact ⟨tw, l, rfl⟩
    obtain ⟨d, hd⟩ := Option.isSome_iff_exists.mp
      (hres tw (hpl ▸ List.mem_cons_self tw l))
    have hval : resolvedTriples fetch portfolio ≠ [] := by
      rw [hpl, resolvedTriples_cons_some fetch tw l d hd]
      simp
    have hW : ((resolvedTriples fetch portfolio).map
        (fun x => x.2.1)).sum = (portfolio.map (·.2)).sum :=
      resolved_weights_sum fetch portfolio hres
    have hrec := cpm_record_no_pref sqrtFn fetch hist portfolio benchmark
      hne hval (by rw [hW]; exact htot)
    rw [hrec]
    refine ⟨?_, ?_, ?_, ?_, ?_⟩
    · show ((resolvedTriples fetch portfolio).map _).sum = _
      rw [hW]
      exact resolved_score_sum fetch (fun d => d.esg_score) _ portfolio hres
    · show ((resolvedTriples fetch portfolio).map _).sum = _
      rw [hW]
      exact resolved_score_sum fetch (fun d => d.environmental_score) _
        portfolio hres
    · show ((resolvedTriples fetch portfolio).map _).sum = _
      rw [hW]
      exact resolved_score_sum fetch (fun d => d.social_score) _
        portfolio hres
    · show ((resolvedTriples fetch portfolio).map _).sum = _
      rw [hW]
      exact resolved_score_sum fetch (fun d => d.governance_score) _
        portfolio hres
    · intro hsec
      have hsec2 : ∀ x ∈ resolvedTriples fetch portfolio,
          (x.2.2 : AssetData α).sector ≠ "N/A" := by
        intro x hx
        simp only [resolvedTriples, List.mem_filterMap] at hx
        obtain ⟨tw2, htw2, hfx⟩ := hx
        obtain ⟨d2, hd2, hxd⟩ := Option.map_eq_some'.mp hfx
        have hx22 : x.2.2 = d2 := by rw [← hxd]
        rw [hx22]
        exact hsec tw2 htw2 d2 hd2
      show valuesSum ((resolvedTriples fetch portfolio).foldl _ []) = 1
      rw [valuesSum_exposure_fold _ (resolvedTriples fetch portfolio) []
        hsec2]
      rw [sum_map_div (resolvedTriples fetch portfolio) (fun x => x.2.1) _,
        hW]
      simp [valuesSum, div_self htot]
  · have hresAB : resolvedTriples
        (fun t => if t = "A" then
            some (⟨"Tech", "US", 10, 2, 3, 2⟩ : AssetData ℚ)
          else if t = "B" then
            some (⟨"Tech", "US", 15, 3, 4, 3⟩ : AssetData ℚ)
          else none)
        [("A", (50 : ℚ)), ("B", 50)] =
        [("A", 50, ⟨"Tech", "US", 10, 2, 3, 2⟩),
         ("B", 50, ⟨"Tech", "US", 15, 3, 4, 3⟩)] := by
      simp [resolvedTriples]
    have hrec := cpm_record_no_pref (id : ℚ → ℚ)
      (fun t => if t = "A" then
          some (⟨"Tech", "US", 10, 2, 3, 2⟩ : AssetData ℚ)
        else if t = "B" then
          some (⟨"Tech", "US", 15, 3, 4, 3⟩ : AssetData ℚ)
        else none)
      (fun _ => []) [("A", 50), ("B", 50)] none (by simp)
      (by rw [hresAB]; simp) (by rw [hresAB]; norm_num)
    rw [hrec]
    constructor
    · show ((resolvedTriples _ _).map _).sum = 25 / 2
      rw [hresAB]
      norm_num
    · show ((resolvedTriples _ _).map _).sum = 5 / 2
      rw [hresAB]
      norm_num

lemma lookup_getD_zero :
    ∀ (l : List (String × α)) (t : String), (∀ tw ∈ l, tw.2 = 0) →
      (l.lookup t).getD 0 = 0 := by
  intro l
  induction l with
  | nil => intro t _; rfl
  | cons kv es ih =>
    intro t h
    obtain ⟨k, v⟩ := kv
    simp only [List.lookup]
    cases hk : (t == k)
    · exact ih t (fun y hy => h y (List.mem_cons_of_mem _ hy))
    · simpa using h (k, v) (List.mem_cons_self (k, v) es)

lemma validPairs_of_empty_hist [DecidableEq α] (tickers : List String)
    (weights : List α) (hist : String → List α)
    (h : ∀ t ∈ tickers, hist t = []) :
    validPairs tickers weights hist = [] := by
  unfold validPairs
  rw [List.filter_eq_nil_iff]
  intro tw htw
  have hmem := (List.of_mem_zip htw).1
  rw [h tw.1 hmem]
  simp [List.isEmpty]

/-- The series builder returns two empty series whenever all weights are
zero (Python's `ZeroDivisionError` from `w / total_weight`, caught by the
`except` clause). -/
lemma gphd_zero_weights [DecidableEq α] (tickers : List String)
    (weights : List α) (hist : String → List α)
    (h : ∀ w ∈ weights, w = 0) :
    get_portfolio_historical_data tickers weights hist = ([], []) := by
  simp only [get_portfolio_historical_data]
  split
  · rfl
  · split
    · rfl
    · rw [if_pos ?_]
      apply List.sum_eq_zero
      intro x hx
      obtain ⟨tw, htw, rfl⟩ := List.mem_map.mp hx
      have hzip := List.mem_of_mem_filter htw
      exact h tw.2 (List.of_mem_zip hzip).2

lemma resolvedTriples_eq_nil (fetch : String → Option (AssetData α))
    (portfolio : List (String × α))
    (h : ∀ tw ∈ portfolio, fetch tw.1 = none) :
    resolvedTriples fetch portfolio = [] := by
  unfold resolvedTriples
  rw [List.filterMap_eq_nil_iff]
  intro tw htw
  rw [h tw htw]
  rfl

lemma resolvedTriples_weights_zero (fetch : String → Option (AssetData α))
    (portfolio : List (String × α)) (h : ∀ tw ∈ portfolio, tw.2 = 0) :
    ((resolvedTriples fetch portfolio).map (fun x => x.2.1)).sum = 0 := by
  apply List.sum_eq_zero
  intro x hx
  obtain ⟨tw, htw, hfx⟩ := List.mem_map.mp hx
  obtain ⟨tw2, htw2, hmap⟩ := List.mem_filterMap.mp htw
  obtain ⟨d2, -, hxd⟩ := Option.map_eq_some'.mp hmap
  rw [← hxd] at hfx
  rw [← hfx]
  exact h tw2 htw2

lemma aggregatorTail_no_data [DecidableEq α] (sqrtFn : α → α)
    (fetch : String → Option (AssetData α)) (hist : String → List α)
    (benchmark : Option (List α)) (p2 : List (String × α))
    (hvp : validPairs (p2.map (·.1)) (p2.map (·.2)) hist = [])
    (hrt : resolvedTriples fetch p2 = []) :
    aggregatorTail sqrtFn fetch hist benchmark p2 = initMetrics := by
  simp only [aggregatorTail]
  have hgp : get_portfolio_historical_data (p2.map (·.1)) (p2.map (·.2))
      hist = ([], []) := by
    simp only [get_portfolio_historical_data]
    split
    · rfl
    · simp [hvp]
  rw [hgp, hrt]
  simp [initMetrics]

lemma aggregatorTail_zero_weights [DecidableEq α] (sqrtFn : α → α)
    (fetch : String → Option (AssetData α)) (hist : String → List α)
    (benchmark : Option (List α)) (p2 : List (String × α))
    (h2 : ∀ tw ∈ p2, tw.2 = 0) :
    aggregatorTail sqrtFn fetch hist benchmark p2 = initMetrics := by
  simp only [aggregatorTail]
  have hgp := gphd_zero_weights (p2.map (·.1)) (p2.map (·.2)) hist (by
    intro w hw
    obtain ⟨tw, htw, rfl⟩ := List.mem_map.mp hw
    exact h2 tw htw)
  rw [hgp]
  have hsum := resolvedTriples_weights_zero fetch p2 h2
  by_cases hv : resolvedTriples fetch p2 = []
  · rw [if_pos hv]
    simp [initMetrics]
  · rw [if_neg hv, if_pos hsum]
    simp [initMetrics]

/-- **C8.** Across the listed degenerate inputs — an empty weights map,
tickers none of which resolve (no record and no history), all-zero
weights, empty or all-empty price series — the portfolio aggregator
returns the all-zero/empty `PortfolioMetrics` record and the series
builder returns two empty series.  No exception crosses either boundary:
the embedding is total, with Python's internally raised-and-caught
`ZeroDivisionError` modelled by the explicit zero-sum branches. -/
theorem aggregator_and_series_never_raise
    {α : Type*} [LinearOrderedField α] [DecidableEq α] :
    (∀ (sqrtFn : α → α) (fetch : String → Option (AssetData α))
        (hist : String → List α) (preference : Option String)
        (benchmark : Option (List α)),
      calculate_portfolio_metrics sqrtFn fetch hist [] preference
        benchmark = initMetrics) ∧
    (∀ (sqrtFn : α → α) (fetch : String → Option (AssetData α))
        (hist : String → List α) (portfolio : List (String × α))
        (preference : Option String) (benchmark : Option (List α)),
      (∀ tw ∈ portfolio, fetch tw.1 = none) →
      (∀ tw ∈ portfolio, hist tw.1 = []) →
      calculate_portfolio_metrics sqrtFn fetch hist portfolio preference
        benchmark = initMetrics) ∧
    (∀ (sqrtFn : α → α) (fetch : String → Option (AssetData α))
        (hist : String → List α) (portfolio : List (String × α))
        (preference : Option String) (benchmark : Option (List α)),
      (∀ tw ∈ portfolio, tw.2 = 0) →
      calculate_portfolio_metrics sqrtFn fetch hist portfolio preference
        benchmark = initMetrics) ∧
    (∀ (weights : List α) (hist : String → List α),
      get_portfolio_historical_data [] weights hist = ([], [])) ∧
    (∀ (tickers : List String) (hist : String → List α),
      get_portfolio_historical_data tickers ([] : List α) hist = ([], [])) ∧
    (∀ (tickers : List String) (weights : List α)
        (hist : String → List α), (∀ t ∈ tickers, hist t = []) →
      get_portfolio_historical_data tickers weights hist = ([], [])) ∧
    (∀ (tickers : List String) (weights : List α)
        (hist : String → List α), (∀ w ∈ weights, w = 0) →
      get_portfolio_historical_data tickers weights hist = ([], [])) := by
  refine ⟨?_, ?_, ?_, ?_, ?_, ?_, gphd_zero_weights⟩
  · intro sqrtFn fetch hist preference benchmark
    rfl
  · intro sqrtFn fetch hist portfolio preference benchmark hf hh
    by_cases hp : portfolio = []
    · subst hp
      rfl
    · simp only [calculate_portfolio_metrics]
      rw [if_neg hp]
      cases preference with
      | some pref =>
        have hsd : portfolio.filterMap (fun tw =>
            (fetch tw.1).map (assetToStock tw.1)) = [] := by
          rw [List.filterMap_eq_nil_iff]
          intro a ha
          rw [hf a ha]
          rfl
        rw [hsd]
        show aggregatorTail sqrtFn fetch hist benchmark
            ((filter_stocks_by_preference ([] : List (Stock α)) pref).map
              fun s => (s.ticker, lookupWeight portfolio s.ticker)) =
          initMetrics
        rw [show filter_stocks_by_preference ([] : List (Stock α)) pref = []
          from rfl]
        rw [List.map_nil]
        exact aggregatorTail_no_data sqrtFn fetch hist benchmark [] rfl rfl
      | none =>
        show aggregatorTail sqrtFn fetch hist benchmark portfolio =
          initMetrics
        apply aggregatorTail_no_data
        · apply validPairs_of_empty_hist
          intro t ht
          obtain ⟨tw, htw, rfl⟩ := List.mem_map.mp ht
          exact hh tw htw
        · exact resolvedTriples_eq_nil fetch portfolio hf
  · intro sqrtFn fetch hist portfolio preference benchmark h
    by_cases hp : portfolio = []
    · subst hp
      rfl
    · simp only [calculate_portfolio_metrics]
      rw [if_neg hp]
      cases preference with
      | some pref =>
        show aggregatorTail sqrtFn fetch hist benchmark
            ((filter_stocks_by_preference (portfolio.filterMap fun tw =>
              (fetch tw.1).map (assetToStock tw.1)) pref).map
                fun s => (s.ticker, lookupWeight portfolio s.ticker)) =
          initMetrics
        apply aggregatorTail_zero_weights
        intro tw htw
        obtain ⟨s, -, rfl⟩ := List.mem_map.mp htw
        exact lookup_getD_zero portfolio s.ticker h
      | none =>
        show aggregatorTail sqrtFn fetch hist benchmark portfolio =
          initMetrics
        exact aggregatorTail_zero_weights sqrtFn fetch hist
          benchmark portfolio h
  · intro weights hist
    rfl
  · intro tickers hist
    simp [get_portfolio_historical_data]
  · intro tickers weights hist hh
    simp only [get_portfolio_historical_data]
    split
    · rfl
    · rw [if_pos (validPairs_of_empty_hist tickers weights hist hh)]

/-- Witness for C8: the empty weights map and an all-zero-weight
single-asset portfolio both produce the all-zero/empty record. -/
theorem aggregator_and_series_never_raise_witness :
    calculate_portfolio_metrics (id : ℚ → ℚ) (fun _ => none) (fun _ => [])
      [] none none = initMetrics ∧
    ((∀ tw ∈ [("A", (0 : ℚ))], tw.2 = 0) ∧
      calculate_portfolio_metrics (id : ℚ → ℚ)
        (fun _ => some (⟨"Tech", "US", 10, 2, 3, 2⟩ : AssetData ℚ))
        (fun _ => [100, 110]) [("A", 0)] none none = initMetrics) :=
  ⟨aggregator_and_series_never_raise.1 id (fun _ => none) (fun _ => [])
      none none,
    by simp,
    aggregator_and_series_never_raise.2.2.1 id
      (fun _ => some (⟨"Tech", "US", 10, 2, 3, 2⟩ : AssetData ℚ))
      (fun _ => [100, 110]) [("A", 0)] none none (by simp)⟩

end GreenFolio
